import Mathlib

/-
Verification of the urlshort redirect handlers (src/handler.go).

The Go source defines two functions. MapHandler takes a map from paths to
URLs and a fallback http.Handler and returns a handler closure that, per
request, reads r.URL.Path, redirects with http.StatusFound when the path is
a key of the map, and otherwise calls fallback.ServeHTTP(w, r). YAMLHandler
unmarshals a YAML document into a slice of pathURLPair records, propagates
any unmarshal error without returning a handler, otherwise folds the slice
into a map (later entries overwriting earlier ones) and returns MapHandler
over that map.

The embedding below is pure: a handler is a function from a request to the
observable effect on its response writer, the Go map is modelled
extensionally as a function from strings to optional strings, and the YAML
decoder, which is third-party library code, is modelled from the spec.
-/

namespace Urlshort

/-- The part of a request URL that the handlers read, mirroring Go
net/url.URL: the code reads only the Path field; RawQuery is carried so that
requests differing only in query string are distinct values. -/
structure URL where
  path : String
  rawQuery : String
deriving DecidableEq

/-- An HTTP request descriptor mirroring the fields of Go net/http.Request
relevant to the handlers: method, URL and headers. The handler body reads
only r.URL.Path. -/
structure Request where
  method : String
  url : URL
  headers : List (String × String)
deriving DecidableEq

/-- Go net/http.StatusFound, the status code passed to http.Redirect in
MapHandler. -/
def statusFound : Nat := 302

/-- Mirrors the struct pathURLPair of src/handler.go: a record with a Path
field and a URL field, both strings. -/
structure pathURLPair where
  path : String
  url : String
deriving DecidableEq

/-- A Go map from string to string, modelled extensionally as a function
from keys to optional values, which matches Go map semantics: unordered,
lookup returns the value and a found flag. -/
abbrev PathMap := String → Option String

/-- Go map assignment m[k] = v: the updated map answers v at k and is
unchanged elsewhere. -/
def mapInsert (m : PathMap) (k v : String) : PathMap :=
  fun x => if x = k then some v else m x

/-- Go make(map[string]string): the empty map, in which no key is found. -/
def emptyMap : PathMap := fun _ => none

/-- The observable effect of one handler invocation on its response writer:
either an HTTP redirect was written with a target URL and a status code
(http.Redirect w r url status), or the fallback handler was invoked on a
request and whatever it produced was written verbatim. The type is
polymorphic in the fallback output so the fallback is arbitrary. -/
inductive HandlerAction (ρ : Type) where
  | redirectTo (url : String) (status : Nat)
  | delegated (req : Request) (out : ρ)
deriving DecidableEq

/-- Mirrors MapHandler of src/handler.go: the returned closure reads
path := r.URL.Path and, if url, keyFound := pathsToUrls[path] finds the key,
calls http.Redirect(w, r, url, http.StatusFound); otherwise it calls
fallback.ServeHTTP(w, r). The fallback is modelled as a function from the
request it receives to its output. -/
def MapHandler {ρ : Type} (pathsToUrls : PathMap) (fallback : Request → ρ) :
    Request → HandlerAction ρ :=
  fun r =>
    match pathsToUrls r.url.path with
    | some url => HandlerAction.redirectTo url statusFound
    | none => HandlerAction.delegated r (fallback r)

/-- An input document for YAMLHandler, classified by whether it is decodable
into a sequence of path/url records. -/
inductive Doc where
  | wellFormed (pairs : List pathURLPair)
  | malformed (msg : String)

/-- Modelled from the spec: the YAML decoder yaml.Unmarshal of
gopkg.in/yaml.v2 is third-party code not present under src/. Per spec
section 4.1, a document either decodes into the ordered sequence of records
each carrying a path and a url that it encodes, or is malformed (invalid
document structure, wrong field types, a record missing the url field) and
decoding fails with a parse error and no partial result. An empty byte
sequence decodes to the empty sequence of records and is represented here
as Doc.wellFormed []. -/
def yamlUnmarshal : Doc → Except String (List pathURLPair)
  | Doc.wellFormed pairs => Except.ok pairs
  | Doc.malformed msg => Except.error msg

/-- Mirrors the loop of YAMLHandler, src/handler.go lines 58 to 61: start
from make(map[string]string) and perform pathsToUrls[pair.Path] = pair.URL
for each pair in slice order, so a later pair overwrites an earlier one with
the same path. -/
def buildPathsToUrls (pairs : List pathURLPair) : PathMap :=
  pairs.foldl (fun m pair => mapInsert m pair.path pair.url) emptyMap

/-- Mirrors YAMLHandler of src/handler.go: unmarshal the bytes into a slice
of pathURLPair, return (nil, err) on error, otherwise build the map from the
slice and return MapHandler over it with no error. -/
def YAMLHandler {ρ : Type} (yamlBytes : Doc) (fallback : Request → ρ) :
    Except String (Request → HandlerAction ρ) :=
  match yamlUnmarshal yamlBytes with
  | Except.error err => Except.error err
  | Except.ok pairs => Except.ok (MapHandler (buildPathsToUrls pairs) fallback)

/-- Written from the words of the spec, not from the code: the url
associated with a path in a document, taking, when the path is duplicated,
the url of its last occurrence in document order. Used to compare the map
the code builds against the mapping the spec describes. -/
def lastUrl : List pathURLPair → String → Option String
  | [], _ => none
  | pair :: rest, k =>
    match lastUrl rest k with
    | some u => some u
    | none => if pair.path = k then some pair.url else none

/-- Written from the words of the spec: the canonical mapping obtained by
collapsing the document pairs last-write-wins. -/
def canonicalMapping (pairs : List pathURLPair) : PathMap :=
  fun k => lastUrl pairs k

/-- One dispatch with the path map threaded as explicit state. The body of
the closure returned by MapHandler only reads the map, it contains no
assignment to it, so the state the body leaves behind is the state it
received. -/
def serveOne {ρ : Type} (fallback : Request → ρ) (m : PathMap) (r : Request) :
    HandlerAction ρ × PathMap :=
  (MapHandler m fallback r, m)

/-- A sequence of dispatches threading the path map state from each request
to the next, returning the list of observable actions and the final state of
the map. -/
def serveSeq {ρ : Type} (fallback : Request → ρ) :
    PathMap → List Request → List (HandlerAction ρ) × PathMap
  | m, [] => ([], m)
  | m, r :: rs =>
    let first := serveOne fallback m r
    let rest := serveSeq fallback first.2 rs
    (first.1 :: rest.1, rest.2)

/-- Whether the handler took the redirect branch of its lookup. -/
def tookRedirectBranch {ρ : Type} : HandlerAction ρ → Bool
  | HandlerAction.redirectTo _ _ => true
  | HandlerAction.delegated _ _ => false

/-- The redirect target written, when the redirect branch was taken. -/
def redirectTarget {ρ : Type} : HandlerAction ρ → Option String
  | HandlerAction.redirectTo u _ => some u
  | HandlerAction.delegated _ _ => none

/-- The mapping of the spec scenarios: /dogs maps to the example dogs URL. -/
def dogsMap : PathMap := mapInsert emptyMap "/dogs" "https://example.com/dogs"

/-- A GET request to /dogs with no query and no headers. -/
def reqDogs : Request :=
  { method := "GET", url := { path := "/dogs", rawQuery := "" }, headers := [] }

/-- A POST request to /dogs with a query string and a header, differing from
reqDogs in everything except the path. -/
def reqDogsPost : Request :=
  { method := "POST", url := { path := "/dogs", rawQuery := "q=1" },
    headers := [("X-Test", "1")] }

/-- A GET request to /cats, a path absent from dogsMap. -/
def reqCats : Request :=
  { method := "GET", url := { path := "/cats", rawQuery := "" }, headers := [] }

/-- The duplicate-path document of the spec scenario: /a first maps to u1,
then to u2. -/
def dupPairs : List pathURLPair :=
  [{ path := "/a", url := "u1" }, { path := "/a", url := "u2" }]

/-- A GET request to /a. -/
def reqA : Request :=
  { method := "GET", url := { path := "/a", rawQuery := "" }, headers := [] }

/-- A concrete fallback handler producing a not-found page body. -/
def notFound : Request → String := fun _ => "404 page not found"

/-- Folding Go map assignments over a list of pairs looks up, at any key,
the url of the last pair with that path, falling back to the initial map
when no pair has that path. -/
theorem foldl_mapInsert_lookup (pairs : List pathURLPair) (m : PathMap) (k : String) :
    (pairs.foldl (fun acc pair => mapInsert acc pair.path pair.url) m) k =
      match lastUrl pairs k with
      | some u => some u
      | none => m k := by
  induction pairs generalizing m with
  | nil => simp [lastUrl]
  | cons pair rest ih =>
    simp only [List.foldl_cons, lastUrl]
    rw [ih]
    cases hrest : lastUrl rest k with
    | some u => simp
    | none =>
      by_cases hk : pair.path = k
      · simp [mapInsert, hk]
      · have hk2 : ¬ k = pair.path := fun h => hk h.symm
        simp [mapInsert, hk, hk2]

/-- The map YAMLHandler builds answers, at any key, exactly the url of the
last occurrence of that key among the parsed pairs. -/
theorem buildPathsToUrls_apply (pairs : List pathURLPair) (k : String) :
    buildPathsToUrls pairs k = lastUrl pairs k := by
  unfold buildPathsToUrls
  rw [foldl_mapInsert_lookup]
  cases lastUrl pairs k <;> rfl

/-- The map YAMLHandler builds is the canonical last-write-wins mapping of
the spec, as functions. -/
theorem buildPathsToUrls_eq_canonicalMapping (pairs : List pathURLPair) :
    buildPathsToUrls pairs = canonicalMapping pairs :=
  funext fun k => buildPathsToUrls_apply pairs k

/-- A path that occurs among the pairs has an associated url in the
last-occurrence lookup. -/
theorem lastUrl_isSome_of_mem (pairs : List pathURLPair) (p : pathURLPair)
    (hmem : p ∈ pairs) : ∃ u, lastUrl pairs p.path = some u := by
  induction pairs with
  | nil => cases hmem
  | cons q rest ih =>
    rcases List.mem_cons.mp hmem with h | h
    · subst h
      cases hrest : lastUrl rest p.path with
      | some u => exact ⟨u, by simp [lastUrl, hrest]⟩
      | none => exact ⟨p.url, by simp [lastUrl, hrest]⟩
    · rcases ih h with ⟨u, hu⟩
      exact ⟨u, by simp [lastUrl, hu]⟩

/-- C1: for every well-formed configuration document, building a handler via
YAMLHandler succeeds, and dispatching a request whose path occurs as a path
entry in the document results in a redirect, with status http.StatusFound,
to the url associated with that path in the document, the last occurrence
winning for duplicated paths. -/
theorem c1_yaml_dispatch_redirects_to_document_url {ρ : Type}
    (pairs : List pathURLPair) (fallback : Request → ρ) (r : Request)
    (p : pathURLPair) (hmem : p ∈ pairs) (hpath : p.path = r.url.path) :
    ∃ h u, YAMLHandler (Doc.wellFormed pairs) fallback = Except.ok h ∧
      lastUrl pairs r.url.path = some u ∧
      h r = HandlerAction.redirectTo u statusFound := by
  obtain ⟨u, hu⟩ := lastUrl_isSome_of_mem pairs p hmem
  rw [hpath] at hu
  refine ⟨MapHandler (buildPathsToUrls pairs) fallback, u, rfl, hu, ?_⟩
  simp [MapHandler, buildPathsToUrls_apply, hu]

/-- Witness for C1 at the duplicate-path document of the spec scenario and a
request to /a. -/
theorem c1_witness :
    ({ path := "/a", url := "u2" } : pathURLPair) ∈ dupPairs ∧
    ({ path := "/a", url := "u2" } : pathURLPair).path = reqA.url.path ∧
    ∃ h u, YAMLHandler (Doc.wellFormed dupPairs) notFound = Except.ok h ∧
      lastUrl dupPairs reqA.url.path = some u ∧
      h reqA = HandlerAction.redirectTo u statusFound :=
  ⟨by decide, by decide,
    c1_yaml_dispatch_redirects_to_document_url dupPairs notFound reqA
      { path := "/a", url := "u2" } (by decide) (by decide)⟩

/-- C2: for every malformed input document, YAMLHandler fails with the parse
error and returns no handler: its whole result is Except.error, so no
mapping and no other partial state is produced. -/
theorem c2_malformed_fails_without_handler {ρ : Type} (msg : String)
    (fallback : Request → ρ) :
    YAMLHandler (Doc.malformed msg) fallback = Except.error msg := rfl

/-- C3: for every mapping, fallback and request whose path is a key of the
mapping, the handler produced by MapHandler redirects with status 302 to the
URL the mapping associates with that path. -/
theorem c3_present_redirects_302 {ρ : Type} (m : PathMap)
    (fallback : Request → ρ) (r : Request) (u : String)
    (hfound : m r.url.path = some u) :
    MapHandler m fallback r = HandlerAction.redirectTo u 302 := by
  simp [MapHandler, hfound, statusFound]

/-- Witness for C3 at the spec scenario: the dogs mapping and a request to
/dogs redirect to the dogs URL with status 302. -/
theorem c3_witness :
    dogsMap reqDogs.url.path = some "https://example.com/dogs" ∧
    MapHandler dogsMap notFound reqDogs =
      HandlerAction.redirectTo "https://example.com/dogs" 302 :=
  ⟨by decide, c3_present_redirects_302 dogsMap notFound reqDogs _ (by decide)⟩

/-- C4: for every mapping, fallback and request whose path is not a key of
the mapping, the handler produced by MapHandler delegates to the fallback
with the very same request, and the action records the fallback output on
that request verbatim. -/
theorem c4_absent_delegates_unchanged {ρ : Type} (m : PathMap)
    (fallback : Request → ρ) (r : Request) (habsent : m r.url.path = none) :
    MapHandler m fallback r = HandlerAction.delegated r (fallback r) := by
  simp [MapHandler, habsent]

/-- Witness for C4 at the spec scenario: the dogs mapping and a request to
/cats delegate to the not-found fallback with the original request. -/
theorem c4_witness :
    dogsMap reqCats.url.path = none ∧
    MapHandler dogsMap notFound reqCats =
      HandlerAction.delegated reqCats (notFound reqCats) :=
  ⟨by decide, c4_absent_delegates_unchanged dogsMap notFound reqCats (by decide)⟩

/-- C5: the map built by the loop of YAMLHandler associates every path with
the url of its last occurrence in document order: at each key it equals the
last-occurrence lookup written from the spec, so later duplicate entries
overwrite earlier ones. -/
theorem c5_last_occurrence_wins (pairs : List pathURLPair) (k : String) :
    buildPathsToUrls pairs k = lastUrl pairs k :=
  buildPathsToUrls_apply pairs k

/-- C6: for every well-formed document and fallback, YAMLHandler returns
exactly MapHandler applied to the canonical last-write-wins mapping of the
document, so the two-stage composition refines the spec description
exactly, and the two handlers agree on every request. -/
theorem c6_yaml_refines_maphandler {ρ : Type} (pairs : List pathURLPair)
    (fallback : Request → ρ) :
    YAMLHandler (Doc.wellFormed pairs) fallback =
      Except.ok (MapHandler (canonicalMapping pairs) fallback) := by
  show Except.ok (MapHandler (buildPathsToUrls pairs) fallback) = _
  rw [buildPathsToUrls_eq_canonicalMapping pairs]

/-- C7: the dispatcher produced by MapHandler is a total function into
handler actions, so it raises no error; absence of the path from the mapping
is not an error condition but exactly the case in which the fallback is
invoked on the original request. -/
theorem c7_absent_iff_fallback {ρ : Type} (m : PathMap)
    (fallback : Request → ρ) (r : Request) :
    MapHandler m fallback r = HandlerAction.delegated r (fallback r) ↔
      m r.url.path = none := by
  unfold MapHandler
  cases h : m r.url.path with
  | some u => simp
  | none => simp

/-- C8: serving any sequence of requests with the mapping threaded as state
writes the same actions as the pure per-request dispatch and leaves the
mapping exactly as it was at construction time, so every later request
observes the construction-time mapping; the handler of YAMLHandler is
MapHandler over the built map, hence an instance of this statement. -/
theorem c8_mapping_never_modified {ρ : Type} (m : PathMap)
    (fallback : Request → ρ) (rs : List Request) :
    serveSeq fallback m rs = (rs.map (MapHandler m fallback), m) := by
  induction rs with
  | nil => rfl
  | cons r rest ih => simp [serveSeq, serveOne, ih]

/-- C9: YAMLHandler on the empty document succeeds with no error, and the
resulting handler has the empty mapping, so it delegates every request to
the fallback with the original request. -/
theorem c9_empty_document_delegates_all {ρ : Type} (fallback : Request → ρ) :
    ∃ h, YAMLHandler (Doc.wellFormed []) fallback = Except.ok h ∧
      ∀ r, h r = HandlerAction.delegated r (fallback r) :=
  ⟨MapHandler emptyMap fallback, rfl, fun _ => rfl⟩

/-- C10: for a fixed mapping and fallback, two requests with the same URL
path take the same branch of the dispatch, and on a match redirect to the
same target, whatever their method, headers or query string. -/
theorem c10_decision_depends_only_on_path {ρ : Type} (m : PathMap)
    (fallback : Request → ρ) (r1 r2 : Request)
    (hpath : r1.url.path = r2.url.path) :
    tookRedirectBranch (MapHandler m fallback r1) =
        tookRedirectBranch (MapHandler m fallback r2) ∧
      redirectTarget (MapHandler m fallback r1) =
        redirectTarget (MapHandler m fallback r2) := by
  unfold MapHandler
  rw [hpath]
  cases m r2.url.path <;> simp [tookRedirectBranch, redirectTarget]

/-- Witness for C10 at requests to /dogs differing in method, query string
and headers. -/
theorem c10_witness :
    reqDogs.url.path = reqDogsPost.url.path ∧
    (tookRedirectBranch (MapHandler dogsMap notFound reqDogs) =
        tookRedirectBranch (MapHandler dogsMap notFound reqDogsPost) ∧
      redirectTarget (MapHandler dogsMap notFound reqDogs) =
        redirectTarget (MapHandler dogsMap notFound reqDogsPost)) :=
  ⟨by decide,
    c10_decision_depends_only_on_path dogsMap notFound reqDogs reqDogsPost
      (by decide)⟩

end Urlshort
